import Mathlib

/-!
Verification development for the pi-pokecardmaker batch card generator.

The repository consists of three Python script variants:
  * `card-generator.py`                       (the "neutral" generator)
  * `card-generator.cropmeta.dexstats.py`     (sidecar variant, called V2 below)
  * `card-generator.cropmeta.dexstats.fixed3.py` (sidecar variant, called Fixed3 below)

JSON values are embedded as a mutually inductive type (`JVal`/`JList`/`JObj`)
so that every function below is structurally recursive and kernel-computable.
Python dictionaries are association lists with first-occurrence lookup and
"replace first occurrence, else append" update, which matches insertion-ordered
Python dicts (a dict produced by `json.loads` never has duplicate keys, and all
operations below only ever touch the first occurrence of a key).
JSON numbers are modelled as integers: every number occurring in the claims is
an integer and the scripts pass numeric values through opaquely.
Strings are modelled over their character sequences; Python `str.strip`,
whitespace in the placeholder regex and the character classes of
`normalize_id` are modelled on their ASCII behaviour, which is exact for all
inputs made only of ASCII characters (every input in the claims is ASCII).
-/

mutual
inductive JVal where
  | null
  | bool (b : Bool)
  | num (n : Int)
  | str (s : String)
  | arr (xs : JList)
  | obj (kvs : JObj)
deriving DecidableEq
inductive JList where
  | nil
  | cons (v : JVal) (tl : JList)
deriving DecidableEq
inductive JObj where
  | nil
  | cons (k : String) (v : JVal) (tl : JObj)
deriving DecidableEq
end

/-- Python `d.get(k)` / `k in d`: value at the first occurrence of a key. -/
def JObj.get : JObj → String → Option JVal
  | .nil, _ => none
  | .cons k v tl, key => if k = key then some v else tl.get key

/-- Python `d.get(k, default)`. -/
def JObj.getD (o : JObj) (key : String) (dflt : JVal) : JVal :=
  match o.get key with
  | some v => v
  | none => dflt

/-- Python `d[k] = v`: replace the value at the first occurrence of `k`, else
append a new entry at the end (insertion order). -/
def JObj.set : JObj → String → JVal → JObj
  | .nil, key, v => .cons key v .nil
  | .cons k w tl, key, v => if k = key then .cons k v tl else .cons k w (tl.set key v)

/-- The keys of a dict, in order. -/
def JObj.keys : JObj → List String
  | .nil => []
  | .cons k _ tl => k :: tl.keys

/-- The crop parameter keys, in source order (`_CROP_KEYS` in both sidecar
variants). -/
def CROP_KEYS : List String :=
  ["croppedArea", "croppedAreaPixels", "crop", "zoom", "rotation", "aspect"]

/- Tree walk of `_iter_image_dicts` (both sidecar variants): yield the
dict-valued items of any list found under a key named `images`, recursing
into every other value; items of an `images` list are yielded but not
recursed into. -/
mutual
def imagesIn : JVal → List JObj
  | .obj kvs => imagesInObj kvs
  | .arr xs => imagesInList xs
  | _ => []
def imagesInObj : JObj → List JObj
  | .nil => []
  | .cons k v tl =>
    (if k = "images" then
      (match v with
       | .arr xs => dictItems xs
       | _ => imagesIn v)
     else imagesIn v) ++ imagesInObj tl
def imagesInList : JList → List JObj
  | .nil => []
  | .cons v tl => imagesIn v ++ imagesInList tl
def dictItems : JList → List JObj
  | .nil => []
  | .cons v tl =>
    (match v with | .obj o => [o] | _ => []) ++ dictItems tl
end

/-- Embeds `_extract_crop_params_from_image`: for each listed key present in the
image dict (even with a null value), copy it, in the order of the key list. -/
def extractFrom (img : JObj) : List String → JObj
  | [] => .nil
  | k :: rest =>
    match img.get k with
    | some v => .cons k v (extractFrom img rest)
    | none => extractFrom img rest

/-- Embeds `_apply_crop_params_to_image`: `for k, v in params.items(): img[k] = v`. -/
def applyParams (img : JObj) : JObj → JObj
  | .nil => img
  | .cons k v tl => applyParams (img.set k v) tl

/- `_apply_crop_params_to_images`: apply the same params dict to every image
dict inside the tree.  The Python code first collects all image dicts with
`_iter_image_dicts` and then mutates each in place; since a `json.loads`
tree has no aliasing this equals the in-place tree transform below, which
rewrites exactly the positions `_iter_image_dicts` yields. -/
mutual
def applyImgs : JVal → JObj → JVal
  | .obj kvs, p => .obj (applyImgsObj kvs p)
  | .arr xs, p => .arr (applyImgsList xs p)
  | v, _ => v
def applyImgsObj : JObj → JObj → JObj
  | .nil, _ => .nil
  | .cons k v tl, p =>
    .cons k
      (if k = "images" then
        (match v with
         | .arr xs => .arr (applyItems xs p)
         | _ => applyImgs v p)
       else applyImgs v p)
      (applyImgsObj tl p)
def applyImgsList : JList → JObj → JList
  | .nil, _ => .nil
  | .cons v tl, p => .cons (applyImgs v p) (applyImgsList tl p)
def applyItems : JList → JObj → JList
  | .nil, _ => .nil
  | .cons v tl, p =>
    .cons (match v with | .obj o => .obj (applyParams o p) | _ => v) (applyItems tl p)
end

/-- State of the sidecar file on disk, as the reconciler observes it:
absent, present but unreadable (`read_text` raises), present but not valid
JSON (`json.loads` raises), or parsed to a JSON value.  A successful write of
a value `v` yields the state `parsed v` (the dump/parse round trip of the
written object). -/
inductive SidecarState where
  | missing
  | readError
  | parseError
  | parsed (v : JVal)
deriving DecidableEq

/-- Python exception kinds the embedded reconcilers can raise. -/
inductive PyErr where
  | attributeError
  | nameError
deriving DecidableEq

deriving instance DecidableEq for Except

/-- Python `d.get(k) is not None`: the value at `k` when present and not null. -/
def getNonNull (o : JObj) (key : String) : Option JVal :=
  match o.get key with
  | some v => if v = .null then none else some v
  | none => none

/-- Embeds `_sync_crop_sidecar` of the Fixed3 variant
(`card-generator.cropmeta.dexstats.fixed3.py`, lines 160-210), over the root
dict of the rendered record and the observed sidecar state.  `writeOk` tells
whether a `write_text` call would succeed; both writes in this variant are
wrapped in `try/except: pass`, so a failing write leaves the file state
unchanged.  An existing sidecar that parses to a non-dict value makes
`_apply_crop_params_to_image` call `.items()` on it, raising AttributeError.
The `mkdir(parents=True, exist_ok=True)` before the creation write cannot
fail because the sidecar directory is the directory of the image file that
was just read. -/
def syncFixed3 (root : JObj) (st : SidecarState) (writeOk : Bool) :
    Except PyErr (JObj × SidecarState) :=
  match imagesIn (.obj root) with
  | [] => .ok (root, st)
  | img0 :: _ =>
    match st with
    | .missing =>
      let cropParams := extractFrom img0 CROP_KEYS
      let sidecar :=
        match getNonNull root "dexStats" with
        | some d => cropParams.set "dexStats" d
        | none => cropParams
      if writeOk then .ok (root, .parsed (.obj sidecar)) else .ok (root, .missing)
    | .readError => .ok (root, st)
    | .parseError => .ok (root, st)
    | .parsed v =>
      match v with
      | .obj ex =>
        let root' := applyImgsObj root ex
        match getNonNull ex "dexStats" with
        | some d => .ok (root'.set "dexStats" d, st)
        | none =>
          match getNonNull root' "dexStats" with
          | some d =>
            if writeOk then .ok (root', .parsed (.obj (ex.set "dexStats" d)))
            else .ok (root', st)
          | none => .ok (root', st)
      | _ => .error .attributeError

/-- Embeds `_sync_crop_sidecar` of the V2 variant
(`card-generator.cropmeta.dexstats.py`, lines 154-208).  When the rendered
tree contains no image dict the function returns immediately.  Otherwise it
unconditionally reaches the line
`crop_params = _extract_crop_params_from_images(rendered_json)`, and no
function of that name is defined anywhere in the file (only the singular
`_extract_crop_params_from_image` exists), so the call raises NameError
before any write to the sidecar can happen.  The in-place tree mutations the
exists-branch performs beforehand are unobservable: the exception propagates
out of `main`, so neither the output JSON nor the sidecar is ever written. -/
def syncV2 (root : JObj) (st : SidecarState) : Except PyErr (JObj × SidecarState) :=
  match imagesIn (.obj root) with
  | [] => .ok (root, st)
  | _ :: _ => .error .nameError

/-- Embeds the `_inject_src_into_images` item step: set `item["src"]` when the item is a
dict that has a `src` key. -/
def injectItem (uri : String) : JVal → JVal
  | .obj kvs => if (kvs.get "src").isSome then .obj (kvs.set "src" (.str uri)) else .obj kvs
  | v => v

def injectList (uri : String) : JList → JList
  | .nil => .nil
  | .cons v tl => .cons (injectItem uri v) (injectList uri tl)

/-- Embeds `_inject_src_into_images` (both sidecar variants, lines 102-111): only the
top-level `images` key is consulted, and only when its value is a list. -/
def injectSrcIntoImages (root : JObj) (uri : String) : JObj :=
  match root.get "images" with
  | some (.arr xs) => root.set "images" (.arr (injectList uri xs))
  | _ => root

/-- The per-record pipeline of the Fixed3 driver after template rendering
(`main`, lines 292-300): inject the picture data-URI, then reconcile with the
sidecar; the resulting tree is what gets written to the output JSON file. -/
def generateRecord (rendered : JObj) (uri : String) (st : SidecarState) :
    Except PyErr (JObj × SidecarState) :=
  syncFixed3 (injectSrcIntoImages rendered uri) st true

example :
    syncFixed3 (.cons "images" (.arr (.cons (.obj (.cons "zoom" (.num 2) .nil)) .nil)) .nil)
      .missing true
    = .ok (.cons "images" (.arr (.cons (.obj (.cons "zoom" (.num 2) .nil)) .nil)) .nil,
        .parsed (.obj (.cons "zoom" (.num 2) .nil))) := by decide

/- ------------------------------------------------------------------ -/
/- Deep merge, both implementations.                                   -/
/- ------------------------------------------------------------------ -/

/- `deep_merge` of `card-generator.py` (lines 53-61):
     if both dicts: out = dict(base); for k, v in override: out[k] = deep_merge(out.get(k), v)
     if override is None: return base
     return override
   A missing key makes `out.get(k)` return Python `None`, modelled as `.null`. -/
mutual
def deepMergeCG : JVal → JVal → JVal
  | .obj b, .obj o => .obj (deepMergeList b o)
  | base, override => if override = .null then base else override
def deepMergeList : JObj → JObj → JObj
  | out, .nil => out
  | out, .cons k v tl => deepMergeList (out.set k (deepMergeCG (out.getD k .null) v)) tl
end

/-- Python truthiness of a JSON value (`override or {}`). -/
def pyTruthy : JVal → Bool
  | .null => false
  | .bool b => b
  | .num n => n != 0
  | .str s => s != ""
  | .arr .nil => false
  | .arr (.cons _ _) => true
  | .obj .nil => false
  | .obj (.cons _ _ _) => true

/-- Loop body of `deep_merge` in the cropmeta variants (both files, lines
32-42): `result` starts as a copy of the base dict; for each override item,
recurse when both the present base value and the override value are dicts,
otherwise overwrite — so a null override value does overwrite. -/
def mergeCMGo : JObj → JObj → JObj
  | result, .nil => result
  | result, .cons k v tl =>
    match result.get k, v with
    | some (.obj rb), .obj vo => mergeCMGo (result.set k (.obj (mergeCMGo rb vo))) tl
    | _, _ => mergeCMGo (result.set k v) tl

/-- Embeds `deep_merge` of the cropmeta variants: a non-dict base is replaced by
`{}`; `(override or {})` turns a falsy override into `{}`; iterating
`.items()` on a truthy non-dict override raises AttributeError. -/
def deepMergeCM (base override : JVal) : Except PyErr JObj :=
  let result := match base with | .obj b => b | _ => .nil
  if pyTruthy override then
    match override with
    | .obj o => .ok (mergeCMGo result o)
    | _ => .error .attributeError
  else .ok result

/- ------------------------------------------------------------------ -/
/- Python str()/repr() and json.dumps, for placeholder substitution.   -/
/- ------------------------------------------------------------------ -/

def hexDigit (n : Nat) : Char :=
  if n < 10 then Char.ofNat (48 + n) else Char.ofNat (87 + n)

def hex2 (n : Nat) : String := String.mk [hexDigit (n / 16 % 16), hexDigit (n % 16)]

def hex4 (n : Nat) : String :=
  String.mk [hexDigit (n / 4096 % 16), hexDigit (n / 256 % 16), hexDigit (n / 16 % 16),
    hexDigit (n % 16)]

/-- One character of CPython `repr` of a string, given the chosen quote
character (exact for ASCII content). -/
def pyEscChar (q c : Char) : String :=
  if c = '\\' then "\\\\"
  else if c = q then "\\" ++ String.singleton q
  else if c = '\n' then "\\n"
  else if c = '\r' then "\\r"
  else if c = '\t' then "\\t"
  else if c.toNat < 32 || c.toNat == 127 then "\\x" ++ hex2 c.toNat
  else String.singleton c

/-- CPython `repr` of a string: single quotes, or double quotes when the
string contains a single quote but no double quote. -/
def pyReprStr (s : String) : String :=
  let q : Char := if s.toList.contains '\x27' && !(s.toList.contains '"') then '"' else '\x27'
  String.singleton q ++ String.join (s.toList.map (pyEscChar q)) ++ String.singleton q

/- CPython `repr`/`str` of a JSON-shaped value: `None`, `True`, `False`,
decimal integers, quoted strings, and recursively bracketed lists and dicts
with ", " and ": " separators. -/
mutual
def pyRepr : JVal → String
  | .null => "None"
  | .bool true => "True"
  | .bool false => "False"
  | .num n => toString n
  | .str s => pyReprStr s
  | .arr .nil => "[]"
  | .arr (.cons v tl) => "[" ++ pyRepr v ++ pyReprList tl ++ "]"
  | .obj .nil => "\x7b\x7d"
  | .obj (.cons k v tl) => "\x7b" ++ pyReprStr k ++ ": " ++ pyRepr v ++ pyReprObj tl ++ "\x7d"
def pyReprList : JList → String
  | .nil => ""
  | .cons v tl => ", " ++ pyRepr v ++ pyReprList tl
def pyReprObj : JObj → String
  | .nil => ""
  | .cons k v tl => ", " ++ pyReprStr k ++ ": " ++ pyRepr v ++ pyReprObj tl
end

/-- Python `str(v)`: the string itself for strings, else `repr`. -/
def pyStr : JVal → String
  | .str s => s
  | v => pyRepr v

/-- One character of a `json.dumps` string literal (`ensure_ascii=False`). -/
def jsonEscChar (c : Char) : String :=
  if c = '"' then "\\\""
  else if c = '\\' then "\\\\"
  else if c = '\n' then "\\n"
  else if c = '\t' then "\\t"
  else if c = '\r' then "\\r"
  else if c = '\x08' then "\\b"
  else if c = '\x0c' then "\\f"
  else if c.toNat < 32 then "\\u" ++ hex4 c.toNat
  else String.singleton c

/- `json.dumps(v, ensure_ascii=False)` with default separators (used by the
template renderer of the cropmeta variants to inline dict/list values). -/
mutual
def jsonDumps : JVal → String
  | .null => "null"
  | .bool true => "true"
  | .bool false => "false"
  | .num n => toString n
  | .str s => "\"" ++ String.join (s.toList.map jsonEscChar) ++ "\""
  | .arr .nil => "[]"
  | .arr (.cons v tl) => "[" ++ jsonDumps v ++ jsonDumpsList tl ++ "]"
  | .obj .nil => "\x7b\x7d"
  | .obj (.cons k v tl) =>
    "\x7b\"" ++ String.join (k.toList.map jsonEscChar) ++ "\": " ++ jsonDumps v
      ++ jsonDumpsObj tl ++ "\x7d"
def jsonDumpsList : JList → String
  | .nil => ""
  | .cons v tl => ", " ++ jsonDumps v ++ jsonDumpsList tl
def jsonDumpsObj : JObj → String
  | .nil => ""
  | .cons k v tl =>
    ", \"" ++ String.join (k.toList.map jsonEscChar) ++ "\": " ++ jsonDumps v ++ jsonDumpsObj tl
end

/- ------------------------------------------------------------------ -/
/- The placeholder scanner shared by both renderers.                   -/
/- ------------------------------------------------------------------ -/

/-- Characters of Python `\s` (ASCII range). -/
def isPySpace (c : Char) : Bool :=
  c = ' ' || c = '\t' || c = '\n' || c = '\r' || c = '\x0b' || c = '\x0c'

/-- The character class `[a-zA-Z0-9_.-]` of the placeholder pattern. -/
def isKeyChar (c : Char) : Bool :=
  c.isAlphanum || c = '_' || c = '.' || c = '-'

/-- Match the regex `\x7b\x7b\s*([a-zA-Z0-9_.-]+)\s*\x7d\x7d` at the start of
the character list; on success return the captured key, the whole matched
text (`match.group(0)`) and the remaining characters.  The pattern admits no
backtracking (its three character classes are pairwise disjoint and none
contains a brace), so maximal munch is exact. -/
def tryMatch (l : List Char) : Option (String × String × List Char) :=
  match l with
  | '\x7b' :: '\x7b' :: r2 =>
    let sp1 := r2.takeWhile isPySpace
    let r3 := r2.dropWhile isPySpace
    let key := r3.takeWhile isKeyChar
    let r4 := r3.dropWhile isKeyChar
    if key.isEmpty then none
    else
      let sp2 := r4.takeWhile isPySpace
      let r5 := r4.dropWhile isPySpace
      match r5 with
      | '\x7d' :: '\x7d' :: r6 =>
        some (key.asString,
          ('\x7b' :: '\x7b' :: (sp1 ++ key ++ sp2 ++ ['\x7d', '\x7d'])).asString, r6)
      | _ => none
  | _ => none

/-- Possible failures of a replacer: only the strict mode of
`render_placeholders` ever raises (`KeyError` on a missing placeholder). -/
inductive RenderErr where
  | missingKey (k : String)
deriving DecidableEq

/-- Embeds `re.sub` of the placeholder pattern: scan left to right, replacing each
non-overlapping leftmost match via `repl key matchedText`.  Structural on a
fuel argument; `pySub` runs it with fuel equal to the input length, which
suffices because every step consumes at least one character. -/
def scanSub (repl : String → String → Except RenderErr String) :
    Nat → List Char → Except RenderErr String
  | _, [] => .ok ""
  | 0, _ :: _ => .ok ""
  | fuel + 1, c :: rest =>
    match tryMatch (c :: rest) with
    | some (key, matched, r6) => do
      let s ← repl key matched
      let t ← scanSub repl fuel r6
      .ok (s ++ t)
    | none => do
      let t ← scanSub repl fuel rest
      .ok (String.singleton c ++ t)

def pySub (repl : String → String → Except RenderErr String) (s : String) :
    Except RenderErr String :=
  scanSub repl s.toList.length s.toList

/- ------------------------------------------------------------------ -/
/- The two renderers.                                                  -/
/- ------------------------------------------------------------------ -/

/-- Python `key.split(".")`: split on every dot, keeping empty parts
(`"a.b"` gives `["a", "b"]`, `""` gives `[""]`). -/
def splitDotGo : List Char → List Char → List (List Char)
  | acc, [] => [acc.reverse]
  | acc, c :: rest =>
    if c = '.' then acc.reverse :: splitDotGo [] rest else splitDotGo (c :: acc) rest

def splitDots (key : String) : List String :=
  (splitDotGo [] key.toList).map List.asString

/-- Dotted-path lookup of the cropmeta `render_template` (lines 51-58):
descend while the current value is a dict containing the part, else `None`. -/
def lookupGo : JVal → List String → JVal
  | cur, [] => cur
  | .obj kvs, p :: rest =>
    (match kvs.get p with
     | some v => lookupGo v rest
     | none => .null)
  | _, _ :: _ => .null

def lookupDotted (vars : JObj) (key : String) : JVal :=
  lookupGo (.obj vars) (splitDots key)

/-- Replacer of the cropmeta `render_template` (lines 62-71): `None` keeps
the matched text, dicts and lists are inlined with `json.dumps`, everything
else is `str()`-ified. -/
def replCM (vars : JObj) (key matched : String) : Except RenderErr String :=
  match lookupDotted vars key with
  | .null => .ok matched
  | .arr xs => .ok (jsonDumps (.arr xs))
  | .obj o => .ok (jsonDumps (.obj o))
  | v => .ok (pyStr v)

/-- Embeds `render_template` of the cropmeta variants: regex substitution over the
raw template string. -/
def renderTemplateStr (tpl : String) (vars : JObj) : Except RenderErr String :=
  pySub (replCM vars) tpl

/-- Embeds `get_dotted` of `card-generator.py` (lines 64-70): raises `KeyError`
(modelled as `none`) when a part is missing or the current value is not a
dict. -/
def getDotted : JVal → List String → Option JVal
  | cur, [] => some cur
  | .obj kvs, p :: rest =>
    (match kvs.get p with
     | some v => getDotted v rest
     | none => none)
  | _, _ :: _ => none

/-- The lookup of `render_placeholders` (lines 96-104): dotted lookup when
the key contains a dot, else plain dict access; `none` models the caught
`KeyError`. -/
def cgResolve (vars : JObj) (key : String) : Option JVal :=
  if key.toList.contains '.' then getDotted (.obj vars) (splitDots key) else vars.get key

/-- Replacer of `render_placeholders`: a resolution failure keeps the matched
text in lenient mode and raises in strict mode; a resolved `None` becomes the
empty string; every other value — scalars, dicts and lists alike — becomes
`str(v)`. -/
def replCG (strict : Bool) (vars : JObj) (key matched : String) : Except RenderErr String :=
  match cgResolve vars key with
  | none => if strict then .error (.missingKey key) else .ok matched
  | some v => .ok (if v = .null then "" else pyStr v)

/- `render_placeholders` of `card-generator.py` (lines 94-114): a tree walk
over the parsed template, substituting inside string leaves only. -/
mutual
def renderPH (strict : Bool) (vars : JObj) : JVal → Except RenderErr JVal
  | .str s => do
    let t ← pySub (replCG strict vars) s
    .ok (.str t)
  | .arr xs => do
    let ys ← renderPHList strict vars xs
    .ok (.arr ys)
  | .obj kvs => do
    let o ← renderPHObj strict vars kvs
    .ok (.obj o)
  | v => .ok v
def renderPHList (strict : Bool) (vars : JObj) : JList → Except RenderErr JList
  | .nil => .ok .nil
  | .cons v tl => do
    let w ← renderPH strict vars v
    let ws ← renderPHList strict vars tl
    .ok (.cons w ws)
def renderPHObj (strict : Bool) (vars : JObj) : JObj → Except RenderErr JObj
  | .nil => .ok .nil
  | .cons k v tl => do
    let w ← renderPH strict vars v
    let ws ← renderPHObj strict vars tl
    .ok (.cons k w ws)
end

/- ------------------------------------------------------------------ -/
/- Identifier normalization and the batch loop of card-generator.py.   -/
/- ------------------------------------------------------------------ -/

/-- The character class `[a-zA-Z0-9._-]` of `normalize_id`. -/
def isSafeChar (c : Char) : Bool :=
  c.isAlphanum || c = '.' || c = '_' || c = '-'

/-- Embeds `re.sub(r"[^a-zA-Z0-9._-]+", "-", s)`: every maximal run of unsafe
characters becomes a single dash.  The flag records whether the previous
character belonged to an unsafe run. -/
def sanitizeGo : Bool → List Char → List Char
  | _, [] => []
  | inRun, c :: rest =>
    if isSafeChar c then c :: sanitizeGo false rest
    else if inRun then sanitizeGo true rest
    else '-' :: sanitizeGo true rest

/-- Python `s.strip()` (ASCII whitespace). -/
def stripPy (s : String) : String :=
  (((s.toList.dropWhile isPySpace).reverse.dropWhile isPySpace).reverse).asString

inductive IdErr where
  | missing
  | empty
deriving DecidableEq

/-- Embeds `normalize_id` (`card-generator.py`, lines 138-150): `None` raises
KeyError, `str(value).strip()` empty raises ValueError, otherwise unsafe
character runs are replaced by dashes. -/
def normalizeId (v : JVal) : Except IdErr String :=
  match v with
  | .null => .error .missing
  | v =>
    let s := stripPy (pyStr v)
    if s = "" then .error .empty else .ok ((sanitizeGo false s.toList).asString)

inductive BatchErr where
  | duplicateId (s : String)
  | idMissing
  | idEmpty
  | renderFailed (e : RenderErr)
  | rootNotDict
deriving DecidableEq

/-- The per-config loop of `main` in `card-generator.py` (lines 197-224),
with the optional `--require-keys` list left empty (its default).  For each
config, in order: merge onto defaults, normalize the identifier, reject a
duplicate before rendering, render, require a dict root, and accumulate the
record.  No file is written inside the loop. -/
def runBatchGo (template : JVal) (defaults : JObj) (idKey : String) (strict : Bool) :
    List JObj → List String → Except BatchErr (List (String × JVal))
  | [], _ => .ok []
  | cfg :: rest, seen =>
    let vars := deepMergeList defaults cfg
    match normalizeId (vars.getD idKey .null) with
    | .error .missing => .error .idMissing
    | .error .empty => .error .idEmpty
    | .ok rid =>
      if rid ∈ seen then .error (.duplicateId rid)
      else
        match renderPH strict vars template with
        | .error e => .error (.renderFailed e)
        | .ok rendered =>
          match rendered with
          | .obj o =>
            match runBatchGo template defaults idKey strict rest (rid :: seen) with
            | .ok rs => .ok ((rid, .obj o) :: rs)
            | .error e => .error e
          | _ => .error .rootNotDict

def runBatch (template : JVal) (defaults : JObj) (idKey : String) (strict : Bool)
    (configs : List JObj) : Except BatchErr (List (String × JVal)) :=
  runBatchGo template defaults idKey strict configs []

/-- The output files `main` writes, identified by name: the aggregate `--out`
file and one `<id>.json` per record under `--split`.  Both `dump_json` calls
happen only after the whole loop has finished (lines 226-235), so a batch
that fails writes nothing. -/
def batchWrites (template : JVal) (defaults : JObj) (idKey : String) (strict : Bool)
    (configs : List JObj) : List String :=
  match runBatch template defaults idKey strict configs with
  | .ok rs => "out" :: rs.map (fun r => r.1 ++ ".json")
  | .error _ => []

/-- The normalized identifier a config yields: `variables.get(args.id_key)`
on the merge result, then `normalize_id`. -/
def configId (defaults : JObj) (idKey : String) (cfg : JObj) : Except IdErr String :=
  normalizeId ((deepMergeList defaults cfg).getD idKey .null)

/- ------------------------------------------------------------------ -/
/- Dictionary lemmas.                                                  -/
/- ------------------------------------------------------------------ -/

theorem JObj.get_set_self : ∀ (o : JObj) (k : String) (v : JVal),
    (o.set k v).get k = some v
  | .nil, k, v => by simp [JObj.set, JObj.get]
  | .cons k' w tl, k, v => by
    by_cases h : k' = k
    · simp [JObj.set, JObj.get, h]
    · simp [JObj.set, JObj.get, h, JObj.get_set_self tl k v]

theorem JObj.get_set_ne : ∀ (o : JObj) (k' : String) (v : JVal) (k : String), k' ≠ k →
    (o.set k' v).get k = o.get k
  | .nil, k', v, k, h => by simp [JObj.set, JObj.get, h]
  | .cons k0 w tl, k', v, k, h => by
    by_cases h0 : k0 = k'
    · subst h0
      simp [JObj.set, JObj.get, h]
    · simp only [JObj.set, JObj.get, h0, if_false]
      by_cases h1 : k0 = k
      · simp [JObj.get, h1]
      · simp [JObj.get, h1, JObj.get_set_ne tl k' v k h]

theorem JObj.keys_set_of_get : ∀ (o : JObj) (k : String) (v w : JVal), o.get k = some w →
    (o.set k v).keys = o.keys
  | .nil, k, v, w, h => by simp [JObj.get] at h
  | .cons k0 w0 tl, k, v, w, h => by
    by_cases h0 : k0 = k
    · simp [JObj.set, JObj.get, h0, JObj.keys]
    · simp [JObj.get, h0] at h
      simp [JObj.set, JObj.get, h0, JObj.keys, JObj.keys_set_of_get tl k v w h]

theorem extractFrom_get (img : JObj) (ks : List String) (k : String) (hnd : ks.Nodup) :
    (extractFrom img ks).get k = if k ∈ ks then img.get k else none := by
  induction ks with
  | nil => simp [extractFrom, JObj.get]
  | cons k0 tl ih =>
    obtain ⟨hk0, htl⟩ := List.nodup_cons.mp hnd
    by_cases hkk : k = k0
    · subst hkk
      cases hv : img.get k with
      | none =>
        simp [extractFrom, hv, ih htl, hk0, hv]
      | some v =>
        simp [extractFrom, hv, JObj.get]
    · cases hv : img.get k0 with
      | none =>
        simp [extractFrom, hv, ih htl, hkk, List.mem_cons, Ne.symm hkk]
      | some v =>
        simp [extractFrom, hv, JObj.get, Ne.symm hkk, ih htl, hkk, List.mem_cons]

/- ------------------------------------------------------------------ -/
/- Claims C1, C2 and C4: defects of the sidecar reconciler.            -/
/- ------------------------------------------------------------------ -/

/-- Claim C1 (code bug): regeneration is not idempotent.  With template,
config, picture and sidecar inputs unchanged, the record whose rendered tree
is `{dexStats: "A", images: [{src: "p", zoom: 2}]}`: the first run writes the
sidecar `{zoom: 2, dexStats: "A"}`, and the second run — reading that
sidecar — applies the whole sidecar dict, `dexStats` included, to the image
dict, so its output JSON differs from the first run's output (the sidecar
file itself is left unchanged by the second run, and from the second run on
the output is stable). -/
theorem C1_second_run_output_differs :
    generateRecord
      (.cons "dexStats" (.str "A")
        (.cons "images"
          (.arr (.cons (.obj (.cons "src" (.str "p") (.cons "zoom" (.num 2) .nil))) .nil)) .nil))
      "u" .missing
    = .ok (.cons "dexStats" (.str "A")
        (.cons "images"
          (.arr (.cons (.obj (.cons "src" (.str "u") (.cons "zoom" (.num 2) .nil))) .nil)) .nil),
        .parsed (.obj (.cons "zoom" (.num 2) (.cons "dexStats" (.str "A") .nil))))
    ∧ generateRecord
      (.cons "dexStats" (.str "A")
        (.cons "images"
          (.arr (.cons (.obj (.cons "src" (.str "p") (.cons "zoom" (.num 2) .nil))) .nil)) .nil))
      "u" (.parsed (.obj (.cons "zoom" (.num 2) (.cons "dexStats" (.str "A") .nil))))
    = .ok (.cons "dexStats" (.str "A")
        (.cons "images"
          (.arr (.cons (.obj
            (.cons "src" (.str "u")
              (.cons "zoom" (.num 2) (.cons "dexStats" (.str "A") .nil)))) .nil)) .nil),
        .parsed (.obj (.cons "zoom" (.num 2) (.cons "dexStats" (.str "A") .nil))))
    ∧ (JObj.cons "dexStats" (.str "A")
        (.cons "images"
          (.arr (.cons (.obj (.cons "src" (.str "u") (.cons "zoom" (.num 2) .nil))) .nil)) .nil))
      ≠ (JObj.cons "dexStats" (.str "A")
        (.cons "images"
          (.arr (.cons (.obj
            (.cons "src" (.str "u")
              (.cons "zoom" (.num 2) (.cons "dexStats" (.str "A") .nil)))) .nil)) .nil)) := by
  refine ⟨by decide, by decide, by decide⟩

/-- Claim C2 (code bug): the crop-parameter backfill never happens.  With an
existing sidecar `{zoom: 2}` and a rendered tree whose first image carries the
template-derived `rotation: 90`, the Fixed3 variant returns with the sidecar
still exactly `{zoom: 2}` (so `rotation` is never copied in), and in the V2
variant — the one whose comments promise the backfill — `_sync_crop_sidecar`
raises NameError on every tree that has an image dict, because it calls the
undefined `_extract_crop_params_from_images`. -/
theorem C2_crop_backfill_never_happens :
    syncFixed3
      (.cons "images"
        (.arr (.cons (.obj (.cons "src" (.str "p") (.cons "rotation" (.num 90) .nil))) .nil)) .nil)
      (.parsed (.obj (.cons "zoom" (.num 2) .nil))) true
    = .ok (.cons "images"
        (.arr (.cons (.obj
          (.cons "src" (.str "p")
            (.cons "rotation" (.num 90) (.cons "zoom" (.num 2) .nil)))) .nil)) .nil,
        .parsed (.obj (.cons "zoom" (.num 2) .nil)))
    ∧ (JObj.cons "zoom" (.num 2) .nil).get "rotation" = none
    ∧ syncV2
      (.cons "images"
        (.arr (.cons (.obj (.cons "src" (.str "p") (.cons "rotation" (.num 90) .nil))) .nil)) .nil)
      (.parsed (.obj (.cons "zoom" (.num 2) .nil))) = .error .nameError := by
  refine ⟨by decide, by decide, by decide⟩

/-- Claim C4 (code bug): the reconciler copies every sidecar key onto every
image dict, not only the Crop Parameter Set.  With sidecar
`{dexStats: "A", zoom: 2}` and rendered tree `{images: [{src: "p"}]}`, the
image dict ends up carrying `dexStats: "A"` — a key outside the Crop
Parameter Set — alongside `zoom: 2`. -/
theorem C4_sidecar_dexstats_written_onto_image :
    syncFixed3
      (.cons "images" (.arr (.cons (.obj (.cons "src" (.str "p") .nil)) .nil)) .nil)
      (.parsed (.obj (.cons "dexStats" (.str "A") (.cons "zoom" (.num 2) .nil)))) true
    = .ok (.cons "images"
        (.arr (.cons (.obj
          (.cons "src" (.str "p")
            (.cons "dexStats" (.str "A") (.cons "zoom" (.num 2) .nil)))) .nil))
        (.cons "dexStats" (.str "A") .nil),
        .parsed (.obj (.cons "dexStats" (.str "A") (.cons "zoom" (.num 2) .nil))))
    ∧ imagesIn (.obj
        (.cons "images"
          (.arr (.cons (.obj
            (.cons "src" (.str "p")
              (.cons "dexStats" (.str "A") (.cons "zoom" (.num 2) .nil)))) .nil))
          (.cons "dexStats" (.str "A") .nil)))
      = [.cons "src" (.str "p") (.cons "dexStats" (.str "A") (.cons "zoom" (.num 2) .nil))]
    ∧ (JObj.cons "src" (.str "p")
        (.cons "dexStats" (.str "A") (.cons "zoom" (.num 2) .nil))).get "dexStats"
      = some (.str "A") := by
  refine ⟨by decide, by decide, by decide⟩

/- ------------------------------------------------------------------ -/
/- Claim C3: first-write-wins for captions.                            -/
/- ------------------------------------------------------------------ -/

/-- Claim C3 counterexample: the claim quantifies over every rendered tree,
but a tree without any Image Reference makes the reconciler return before
even reading the sidecar, so with sidecar `{dexStats: "A"}` and rendered tree
`{dexStats: "B"}` the output tree keeps `dexStats = "B"`, not `"A"`. -/
theorem C3_counterexample :
    syncFixed3 (.cons "dexStats" (.str "B") .nil)
      (.parsed (.obj (.cons "dexStats" (.str "A") .nil))) true
    = .ok (.cons "dexStats" (.str "B") .nil,
        .parsed (.obj (.cons "dexStats" (.str "A") .nil)))
    ∧ (JObj.cons "dexStats" (.str "B") .nil).get "dexStats" ≠ some (.str "A") := by
  refine ⟨by decide, by decide⟩

/-- Claim C3 (amended): for every sidecar that parses as a JSON object whose
`dexStats` is a non-empty string `s`, and every rendered tree that contains
at least one Image Reference, reconciliation returns the tree with `dexStats`
overwritten to `s` (after the sidecar crop application) and leaves the
sidecar file unchanged — so a config now rendering a different caption does
not show through. -/
theorem C3_caption_first_write_wins (root ex : JObj) (s : String) (wOk : Bool)
    (himg : imagesIn (.obj root) ≠ [])
    (hdex : ex.get "dexStats" = some (.str s)) (hs : s ≠ "") :
    syncFixed3 root (.parsed (.obj ex)) wOk
      = .ok ((applyImgsObj root ex).set "dexStats" (.str s), .parsed (.obj ex))
    ∧ ((applyImgsObj root ex).set "dexStats" (.str s)).get "dexStats" = some (.str s) := by
  cases himgs : imagesIn (.obj root) with
  | nil => exact absurd himgs himg
  | cons img0 rest =>
    constructor
    · simp [syncFixed3, himgs, getNonNull, hdex]
    · exact JObj.get_set_self _ _ _

/-- Claim C3 witness. -/
theorem C3_caption_first_write_wins_witness :
    (imagesIn (.obj (.cons "images" (.arr (.cons (.obj (.cons "src" (.str "p") .nil)) .nil)) .nil))
      ≠ []
    ∧ (JObj.cons "dexStats" (.str "A") .nil).get "dexStats" = some (.str "A")
    ∧ "A" ≠ "")
    ∧ (syncFixed3
        (.cons "images" (.arr (.cons (.obj (.cons "src" (.str "p") .nil)) .nil)) .nil)
        (.parsed (.obj (.cons "dexStats" (.str "A") .nil))) true
      = .ok ((applyImgsObj
            (.cons "images" (.arr (.cons (.obj (.cons "src" (.str "p") .nil)) .nil)) .nil)
            (.cons "dexStats" (.str "A") .nil)).set "dexStats" (.str "A"),
          .parsed (.obj (.cons "dexStats" (.str "A") .nil)))
      ∧ ((applyImgsObj
            (.cons "images" (.arr (.cons (.obj (.cons "src" (.str "p") .nil)) .nil)) .nil)
            (.cons "dexStats" (.str "A") .nil)).set "dexStats" (.str "A")).get "dexStats"
        = some (.str "A")) :=
  ⟨⟨by decide, by decide, by decide⟩,
    C3_caption_first_write_wins _ _ "A" true (by decide) (by decide) (by decide)⟩

/- ------------------------------------------------------------------ -/
/- Claim C5: behaviour on a missing or malformed sidecar.              -/
/- ------------------------------------------------------------------ -/

/-- Claim C5 counterexample: (a) a sidecar that exists but fails to parse is
not treated as empty — the reconciler returns without writing anything, even
though the first image carries extractable crop values (`zoom: 2`); (b) with
a missing sidecar and nothing to extract, a sidecar file holding the empty
object is still created, where the claim says no file is created. -/
theorem C5_counterexample :
    syncFixed3
      (.cons "images" (.arr (.cons (.obj (.cons "zoom" (.num 2) .nil)) .nil)) .nil)
      .parseError true
    = .ok (.cons "images" (.arr (.cons (.obj (.cons "zoom" (.num 2) .nil)) .nil)) .nil,
        .parseError)
    ∧ syncFixed3
      (.cons "images" (.arr (.cons (.obj (.cons "src" (.str "p") .nil)) .nil)) .nil)
      .missing true
    = .ok (.cons "images" (.arr (.cons (.obj (.cons "src" (.str "p") .nil)) .nil)) .nil,
        .parsed (.obj .nil)) := by
  refine ⟨by decide, by decide⟩

/-- Claim C5 (amended): for every rendered tree with at least one Image
Reference, when the sidecar file does not exist the reconciler writes a new
sidecar containing exactly the Crop Parameter Set keys present in the first
Image Reference plus the tree's top-level `dexStats` whenever that value is
not null (the file is created even when there is nothing to extract, then
holding the empty object); when the sidecar file exists but cannot be read
or fails to parse, the reconciler leaves both the tree and the sidecar file
unchanged instead of treating the sidecar as empty. -/
theorem C5_sidecar_creation (root : JObj) (wOk : Bool) (img0 : JObj) (rest : List JObj)
    (himg : imagesIn (.obj root) = img0 :: rest) :
    (∃ sc : JObj,
      syncFixed3 root .missing true = .ok (root, .parsed (.obj sc))
      ∧ (∀ k ∈ CROP_KEYS, sc.get k = img0.get k)
      ∧ sc.get "dexStats" = getNonNull root "dexStats"
      ∧ (∀ k, k ∉ CROP_KEYS → k ≠ "dexStats" → sc.get k = none))
    ∧ syncFixed3 root .parseError wOk = .ok (root, .parseError)
    ∧ syncFixed3 root .readError wOk = .ok (root, .readError)
    ∧ syncFixed3 root .missing false = .ok (root, .missing) := by
  have hnd : CROP_KEYS.Nodup := by decide
  have hdexmem : "dexStats" ∉ CROP_KEYS := by decide
  refine ⟨?_, by simp [syncFixed3, himg], by simp [syncFixed3, himg],
    by simp [syncFixed3, himg]⟩
  cases hdx : getNonNull root "dexStats" with
  | none =>
    refine ⟨extractFrom img0 CROP_KEYS, ?_, ?_, ?_, ?_⟩
    · simp [syncFixed3, himg, hdx]
    · intro k hk
      simp [extractFrom_get img0 CROP_KEYS k hnd, hk]
    · simp [extractFrom_get img0 CROP_KEYS "dexStats" hnd, hdexmem, hdx]
    · intro k hk hkd
      simp [extractFrom_get img0 CROP_KEYS k hnd, hk]
  | some d =>
    refine ⟨(extractFrom img0 CROP_KEYS).set "dexStats" d, ?_, ?_, ?_, ?_⟩
    · simp [syncFixed3, himg, hdx]
    · intro k hk
      have hkd : "dexStats" ≠ k := by
        intro h
        exact hdexmem (h ▸ hk)
      rw [JObj.get_set_ne _ _ _ _ hkd]
      simp [extractFrom_get img0 CROP_KEYS k hnd, hk]
    · rw [JObj.get_set_self]
    · intro k hk hkd
      rw [JObj.get_set_ne _ _ _ _ (Ne.symm hkd)]
      simp [extractFrom_get img0 CROP_KEYS k hnd, hk]

/-- Claim C5 witness. -/
theorem C5_sidecar_creation_witness :
    (imagesIn (.obj (.cons "dexStats" (.str "A")
        (.cons "images" (.arr (.cons (.obj (.cons "zoom" (.num 2) .nil)) .nil)) .nil)))
      = [JObj.cons "zoom" (.num 2) .nil])
    ∧ ((∃ sc : JObj,
        syncFixed3 (.cons "dexStats" (.str "A")
          (.cons "images" (.arr (.cons (.obj (.cons "zoom" (.num 2) .nil)) .nil)) .nil))
          .missing true
        = .ok (.cons "dexStats" (.str "A")
            (.cons "images" (.arr (.cons (.obj (.cons "zoom" (.num 2) .nil)) .nil)) .nil),
            .parsed (.obj sc))
        ∧ (∀ k ∈ CROP_KEYS, sc.get k = (JObj.cons "zoom" (.num 2) .nil).get k)
        ∧ sc.get "dexStats"
          = getNonNull (.cons "dexStats" (.str "A")
              (.cons "images" (.arr (.cons (.obj (.cons "zoom" (.num 2) .nil)) .nil)) .nil))
              "dexStats"
        ∧ (∀ k, k ∉ CROP_KEYS → k ≠ "dexStats" → sc.get k = none))
      ∧ syncFixed3 (.cons "dexStats" (.str "A")
          (.cons "images" (.arr (.cons (.obj (.cons "zoom" (.num 2) .nil)) .nil)) .nil))
          .parseError true
        = .ok (.cons "dexStats" (.str "A")
            (.cons "images" (.arr (.cons (.obj (.cons "zoom" (.num 2) .nil)) .nil)) .nil),
            .parseError)
      ∧ syncFixed3 (.cons "dexStats" (.str "A")
          (.cons "images" (.arr (.cons (.obj (.cons "zoom" (.num 2) .nil)) .nil)) .nil))
          .readError true
        = .ok (.cons "dexStats" (.str "A")
            (.cons "images" (.arr (.cons (.obj (.cons "zoom" (.num 2) .nil)) .nil)) .nil),
            .readError)
      ∧ syncFixed3 (.cons "dexStats" (.str "A")
          (.cons "images" (.arr (.cons (.obj (.cons "zoom" (.num 2) .nil)) .nil)) .nil))
          .missing false
        = .ok (.cons "dexStats" (.str "A")
            (.cons "images" (.arr (.cons (.obj (.cons "zoom" (.num 2) .nil)) .nil)) .nil),
            .missing)) :=
  ⟨by decide,
    C5_sidecar_creation
      (.cons "dexStats" (.str "A")
        (.cons "images" (.arr (.cons (.obj (.cons "zoom" (.num 2) .nil)) .nil)) .nil))
      true (JObj.cons "zoom" (.num 2) .nil) [] (by decide)⟩

/- ------------------------------------------------------------------ -/
/- Claim C6: sidecar I/O failures are non-fatal.                       -/
/- ------------------------------------------------------------------ -/

/-- Claim C6: in the Fixed3 variant, no sidecar I/O failure makes the
reconciler raise.  A failed read (or a failed parse, caught by the same
`except`) returns the tree unchanged — the record proceeds on
template-derived values alone — and a failed write is swallowed in every
branch that writes (sidecar creation, and the `dexStats` persist step), the
reconciler still returning normally. -/
theorem C6_sidecar_io_failures_nonfatal (root : JObj) (wOk : Bool) :
    syncFixed3 root .readError wOk = .ok (root, .readError)
    ∧ syncFixed3 root .parseError wOk = .ok (root, .parseError)
    ∧ (∃ r, syncFixed3 root .missing false = .ok r)
    ∧ (∀ ex : JObj, ∃ r, syncFixed3 root (.parsed (.obj ex)) false = .ok r) := by
  cases himgs : imagesIn (.obj root) with
  | nil =>
    exact ⟨by simp [syncFixed3, himgs], by simp [syncFixed3, himgs],
      ⟨(root, .missing), by simp [syncFixed3, himgs]⟩,
      fun ex => ⟨(root, .parsed (.obj ex)), by simp [syncFixed3, himgs]⟩⟩
  | cons img0 rest =>
    refine ⟨by simp [syncFixed3, himgs], by simp [syncFixed3, himgs],
      ⟨(root, .missing), by simp [syncFixed3, himgs]⟩, fun ex => ?_⟩
    cases hdx : getNonNull ex "dexStats" with
    | some d =>
      exact ⟨((applyImgsObj root ex).set "dexStats" d, .parsed (.obj ex)),
        by simp [syncFixed3, himgs, hdx]⟩
    | none =>
      cases hdr : getNonNull (applyImgsObj root ex) "dexStats" with
      | some d =>
        exact ⟨(applyImgsObj root ex, .parsed (.obj ex)),
          by simp [syncFixed3, himgs, hdx, hdr]⟩
      | none =>
        exact ⟨(applyImgsObj root ex, .parsed (.obj ex)),
          by simp [syncFixed3, himgs, hdx, hdr]⟩

/- ------------------------------------------------------------------ -/
/- Claim C7: deep merge.                                               -/
/- ------------------------------------------------------------------ -/

theorem deepMergeCG_null : ∀ w : JVal, deepMergeCG w .null = w := by
  intro w
  cases w <;> simp [deepMergeCG]

theorem deepMergeCG_scalar (w v : JVal) (h0 : v ≠ .null) (h1 : ∀ oo : JObj, v ≠ .obj oo) :
    deepMergeCG w v = v := by
  cases v with
  | null => exact absurd rfl h0
  | obj oo => exact absurd rfl (h1 oo)
  | bool b => cases w <;> simp [deepMergeCG]
  | num n => cases w <;> simp [deepMergeCG]
  | str s => cases w <;> simp [deepMergeCG]
  | arr xs => cases w <;> simp [deepMergeCG]

theorem deepMergeList_get_not_mem : ∀ (o b : JObj) (k : String), k ∉ o.keys →
    (deepMergeList b o).get k = b.get k
  | .nil, b, k, _ => by simp [deepMergeList]
  | .cons k0 v0 tl, b, k, h => by
    have hk0 : k0 ≠ k := fun he => h (by simp [JObj.keys, he])
    have htl : k ∉ tl.keys := fun hm => h (by simp [JObj.keys, hm])
    rw [deepMergeList, deepMergeList_get_not_mem tl _ k htl,
      JObj.get_set_ne _ _ _ _ hk0]

theorem deepMergeList_get : ∀ (o b : JObj) (k : String) (v : JVal), o.keys.Nodup →
    o.get k = some v →
    (deepMergeList b o).get k = some (deepMergeCG (b.getD k .null) v)
  | .nil, b, k, v, _, h2 => by simp [JObj.get] at h2
  | .cons k0 v0 tl, b, k, v, h1, h2 => by
    have hnd := h1
    rw [JObj.keys] at hnd
    obtain ⟨hk0, htl⟩ := List.nodup_cons.mp hnd
    by_cases hk : k0 = k
    · subst hk
      have hv : v0 = v := by simpa [JObj.get] using h2
      subst hv
      rw [deepMergeList, deepMergeList_get_not_mem tl _ k0 hk0, JObj.get_set_self]
    · have h2' : tl.get k = some v := by simpa [JObj.get, hk] using h2
      rw [deepMergeList, deepMergeList_get tl _ k v htl h2']
      have : (b.set k0 (deepMergeCG (b.getD k0 .null) v0)).getD k .null = b.getD k .null := by
        simp only [JObj.getD, JObj.get_set_ne _ _ _ _ hk]
      rw [this]

/-- Claim C7 counterexample: in the `deep_merge` of the cropmeta variants, a
null override value does erase the base value — merging base `{a: 1}` with
override `{a: null}` yields `{a: null}`, not `{a: 1}`. -/
theorem C7_counterexample :
    deepMergeCM (.obj (.cons "a" (.num 1) .nil)) (.obj (.cons "a" .null .nil))
      = .ok (.cons "a" .null .nil)
    ∧ (JObj.cons "a" JVal.null .nil).get "a" ≠ some (.num 1) := by
  refine ⟨by decide, by decide⟩

/-- Claim C7 (amended): the `deep_merge` of `card-generator.py` lets the
override win at every scalar, merges nested objects key-by-key, and never
lets a null override value erase a base value; both implementations agree on
the worked example `{a: {x: 1, y: 2}}` merged with `{a: {y: 9}}` giving
`{a: {x: 1, y: 9}}`; but in the cropmeta variants' `deep_merge` a null
override value replaces the base value (see the counterexample). -/
theorem C7_deep_merge_semantics (b o : JObj) (k : String) (hnd : o.keys.Nodup) :
    (∀ v : JVal, o.get k = some v → v ≠ .null → (∀ oo : JObj, v ≠ .obj oo) →
      (deepMergeList b o).get k = some v)
    ∧ (∀ bb oo : JObj, b.get k = some (.obj bb) → o.get k = some (.obj oo) →
      (deepMergeList b o).get k = some (.obj (deepMergeList bb oo)))
    ∧ (∀ w : JVal, o.get k = some .null → b.get k = some w →
      (deepMergeList b o).get k = some w)
    ∧ deepMergeCG
        (.obj (.cons "a" (.obj (.cons "x" (.num 1) (.cons "y" (.num 2) .nil))) .nil))
        (.obj (.cons "a" (.obj (.cons "y" (.num 9) .nil)) .nil))
      = .obj (.cons "a" (.obj (.cons "x" (.num 1) (.cons "y" (.num 9) .nil))) .nil)
    ∧ deepMergeCM
        (.obj (.cons "a" (.obj (.cons "x" (.num 1) (.cons "y" (.num 2) .nil))) .nil))
        (.obj (.cons "a" (.obj (.cons "y" (.num 9) .nil)) .nil))
      = .ok (.cons "a" (.obj (.cons "x" (.num 1) (.cons "y" (.num 9) .nil))) .nil) := by
  refine ⟨?_, ?_, ?_, by decide, by decide⟩
  · intro v hget hnull hobj
    rw [deepMergeList_get o b k v hnd hget, deepMergeCG_scalar _ v hnull hobj]
  · intro bb oo hb ho
    rw [deepMergeList_get o b k _ hnd ho]
    rw [JObj.getD, hb]
    rfl
  · intro w ho hb
    rw [deepMergeList_get o b k _ hnd ho, JObj.getD, hb, deepMergeCG_null]

/-- Claim C7 witness. -/
theorem C7_deep_merge_semantics_witness :
    ((JObj.cons "a" (.num 7) .nil).keys.Nodup
    ∧ (JObj.cons "a" JVal.null .nil).keys.Nodup
    ∧ (JObj.cons "a" (.obj (.cons "y" (.num 9) .nil)) .nil).keys.Nodup)
    ∧ (deepMergeList (.cons "a" (.num 5) .nil) (.cons "a" (.num 7) .nil)).get "a"
      = some (.num 7)
    ∧ (deepMergeList (.cons "a" (.num 5) .nil) (.cons "a" JVal.null .nil)).get "a"
      = some (.num 5)
    ∧ (deepMergeList (.cons "a" (.obj (.cons "x" (.num 1) (.cons "y" (.num 2) .nil))) .nil)
        (.cons "a" (.obj (.cons "y" (.num 9) .nil)) .nil)).get "a"
      = some (.obj (deepMergeList (.cons "x" (.num 1) (.cons "y" (.num 2) .nil))
          (.cons "y" (.num 9) .nil))) :=
  ⟨⟨by decide, by decide, by decide⟩,
    (C7_deep_merge_semantics (.cons "a" (.num 5) .nil) (.cons "a" (.num 7) .nil) "a"
      (by decide)).1 (.num 7) (by decide) (by decide) (fun _ h => JVal.noConfusion h),
    (C7_deep_merge_semantics (.cons "a" (.num 5) .nil) (.cons "a" JVal.null .nil) "a"
      (by decide)).2.2.1 (.num 5) (by decide) (by decide),
    (C7_deep_merge_semantics
      (.cons "a" (.obj (.cons "x" (.num 1) (.cons "y" (.num 2) .nil))) .nil)
      (.cons "a" (.obj (.cons "y" (.num 9) .nil)) .nil) "a"
      (by decide)).2.1 (.cons "x" (.num 1) (.cons "y" (.num 2) .nil))
      (.cons "y" (.num 9) .nil) (by decide) (by decide)⟩

/- ------------------------------------------------------------------ -/
/- Claim C8: duplicate identifiers abort the batch before any write.   -/
/- ------------------------------------------------------------------ -/

theorem scanSub_total (repl : String → String → Except RenderErr String)
    (hrepl : ∀ k m, ∃ s, repl k m = .ok s) :
    ∀ (fuel : Nat) (l : List Char), ∃ t, scanSub repl fuel l = .ok t
  | fuel, [] => ⟨"", by cases fuel <;> rfl⟩
  | 0, c :: rest => ⟨"", rfl⟩
  | fuel + 1, c :: rest => by
    cases htm : tryMatch (c :: rest) with
    | none =>
      obtain ⟨t, ht⟩ := scanSub_total repl hrepl fuel rest
      refine ⟨String.singleton c ++ t, ?_⟩
      simp only [scanSub, htm]
      rw [ht]
      rfl
    | some kmr =>
      obtain ⟨key, matched, r6⟩ := kmr
      obtain ⟨s, hs⟩ := hrepl key matched
      obtain ⟨t, ht⟩ := scanSub_total repl hrepl fuel r6
      refine ⟨s ++ t, ?_⟩
      simp only [scanSub, htm]
      rw [hs, ht]
      rfl

theorem replCG_lenient_total (vars : JObj) (k m : String) :
    ∃ s, replCG false vars k m = .ok s := by
  cases hr : cgResolve vars k with
  | none => exact ⟨m, by simp [replCG, hr]⟩
  | some v => exact ⟨if v = .null then "" else pyStr v, by simp [replCG, hr]⟩

mutual
theorem renderPH_lenient_total (vars : JObj) : ∀ v : JVal,
    ∃ w, renderPH false vars v = .ok w
  | .null => ⟨.null, rfl⟩
  | .bool b => ⟨.bool b, rfl⟩
  | .num n => ⟨.num n, rfl⟩
  | .str s => by
    obtain ⟨t, ht⟩ := scanSub_total (replCG false vars) (replCG_lenient_total vars)
      s.toList.length s.toList
    refine ⟨.str t, ?_⟩
    simp only [renderPH, pySub]
    rw [ht]
    rfl
  | .arr xs => by
    obtain ⟨ys, hy⟩ := renderPHList_lenient_total vars xs
    refine ⟨.arr ys, ?_⟩
    simp only [renderPH]
    rw [hy]
    rfl
  | .obj kvs => by
    obtain ⟨p, hp⟩ := renderPHObj_lenient_total vars kvs
    refine ⟨.obj p, ?_⟩
    simp only [renderPH]
    rw [hp]
    rfl
theorem renderPHList_lenient_total (vars : JObj) : ∀ xs : JList,
    ∃ ys, renderPHList false vars xs = .ok ys
  | .nil => ⟨.nil, rfl⟩
  | .cons v tl => by
    obtain ⟨w, hw⟩ := renderPH_lenient_total vars v
    obtain ⟨ws, hws⟩ := renderPHList_lenient_total vars tl
    refine ⟨.cons w ws, ?_⟩
    simp only [renderPHList]
    rw [hw, hws]
    rfl
theorem renderPHObj_lenient_total (vars : JObj) : ∀ o : JObj,
    ∃ p, renderPHObj false vars o = .ok p
  | .nil => ⟨.nil, rfl⟩
  | .cons k v tl => by
    obtain ⟨w, hw⟩ := renderPH_lenient_total vars v
    obtain ⟨ws, hws⟩ := renderPHObj_lenient_total vars tl
    refine ⟨.cons k w ws, ?_⟩
    simp only [renderPHObj]
    rw [hw, hws]
    rfl
end

theorem runBatchGo_dup (t defaults : JObj) (idKey : String) :
    ∀ (configs : List JObj) (ids seen : List String),
      configs.map (configId defaults idKey) = ids.map Except.ok →
      seen.Nodup → ¬ (seen ++ ids).Nodup →
      ∃ s, runBatchGo (.obj t) defaults idKey false configs seen = .error (.duplicateId s)
  | [], ids, seen, hmap, hseen, hdup => by
    have hids : ids = [] := by
      cases ids with
      | nil => rfl
      | cons a l => simp at hmap
    subst hids
    simp at hdup
    exact absurd hseen hdup
  | cfg :: rest, ids, seen, hmap, hseen, hdup => by
    cases ids with
    | nil => simp at hmap
    | cons rid ids' =>
      simp only [List.map] at hmap
      obtain ⟨hid, hmap'⟩ := List.cons.injEq _ _ _ _ ▸ hmap
      rw [List.cons.injEq] at hmap
      obtain ⟨hid, hmap'⟩ := hmap
      have hid' : normalizeId ((deepMergeList defaults cfg).getD idKey JVal.null)
          = Except.ok rid := hid
      by_cases hmem : rid ∈ seen
      · refine ⟨rid, ?_⟩
        unfold runBatchGo
        simp [hid', hmem]
      · obtain ⟨p, hp⟩ := renderPHObj_lenient_total (deepMergeList defaults cfg) t
        have hr : renderPH false (deepMergeList defaults cfg) (.obj t) = .ok (.obj p) := by
          simp only [renderPH]
          rw [hp]
          rfl
        have hdup' : ¬ ((rid :: seen) ++ ids').Nodup := by
          intro hnd
          apply hdup
          have hperm : (seen ++ rid :: ids').Perm (rid :: (seen ++ ids')) :=
            List.perm_middle
          exact hperm.nodup_iff.mpr hnd
        obtain ⟨s, hs⟩ := runBatchGo_dup t defaults idKey rest ids' (rid :: seen)
          hmap' (List.nodup_cons.mpr ⟨hmem, hseen⟩) hdup'
        refine ⟨s, ?_⟩
        unfold runBatchGo
        simp [hid', hmem, hr, hs]

/-- Claim C8: when two config files yield the same normalized identifier, the
batch run of `card-generator.py` fails with the duplicate-identifier error,
and — since the aggregate `--out` file and the per-record `--split` files are
all written only after the whole loop has succeeded — no output file at all,
in particular none for the second duplicate config, has been written at the
time of failure. -/
theorem C8_duplicate_identifier_rejected (t defaults : JObj) (idKey : String)
    (configs : List JObj) (ids : List String)
    (hmap : configs.map (configId defaults idKey) = ids.map Except.ok)
    (hdup : ¬ ids.Nodup) :
    (∃ s, runBatch (.obj t) defaults idKey false configs = .error (.duplicateId s))
    ∧ batchWrites (.obj t) defaults idKey false configs = [] := by
  obtain ⟨s, hs⟩ := runBatchGo_dup t defaults idKey configs ids [] hmap List.nodup_nil
    (by simpa using hdup)
  refine ⟨⟨s, hs⟩, ?_⟩
  simp [batchWrites, runBatch, hs]

/-- Claim C8 witness: two configs both normalizing to the identifier `001`. -/
theorem C8_duplicate_identifier_rejected_witness :
    ([JObj.cons "id" (.str "001") .nil, JObj.cons "id" (.str "001") .nil].map
        (configId .nil "id") = ["001", "001"].map Except.ok
    ∧ ¬ (["001", "001"] : List String).Nodup)
    ∧ ((∃ s, runBatch (.obj .nil) .nil "id" false
        [JObj.cons "id" (.str "001") .nil, JObj.cons "id" (.str "001") .nil]
        = .error (.duplicateId s))
    ∧ batchWrites (.obj .nil) .nil "id" false
        [JObj.cons "id" (.str "001") .nil, JObj.cons "id" (.str "001") .nil] = []) :=
  ⟨⟨by decide, by decide⟩,
    C8_duplicate_identifier_rejected .nil .nil "id"
      [JObj.cons "id" (.str "001") .nil, JObj.cons "id" (.str "001") .nil]
      ["001", "001"] (by decide) (by decide)⟩

/- ------------------------------------------------------------------ -/
/- Claim C9: placeholder substitution typing.                          -/
/- ------------------------------------------------------------------ -/

theorem space_not_keyChar (c : Char) (h : isPySpace c = true) : isKeyChar c = false := by
  simp only [isPySpace, Bool.or_eq_true, decide_eq_true_eq] at h
  rcases h with ((((h | h) | h) | h) | h) | h <;> subst h <;> decide

theorem keyChar_not_space (c : Char) (h : isKeyChar c = true) : isPySpace c = false := by
  cases hsp : isPySpace c with
  | false => rfl
  | true => rw [space_not_keyChar c hsp] at h; exact absurd h (by simp)

theorem takeWhile_all_cons (p : Char → Bool) :
    ∀ (xs : List Char) (y : Char) (ys : List Char), (∀ c ∈ xs, p c = true) → p y = false →
      (xs ++ y :: ys).takeWhile p = xs
  | [], y, ys, _, hy => by
    have hy' : ¬ p y = true := by simp [hy]
    rw [List.nil_append, List.takeWhile_cons_of_neg hy']
  | x :: xs, y, ys, hall, hy => by
    rw [List.cons_append, List.takeWhile_cons_of_pos (hall x (by simp)),
      takeWhile_all_cons p xs y ys (fun c hc => hall c (by simp [hc])) hy]

theorem dropWhile_all_cons (p : Char → Bool) :
    ∀ (xs : List Char) (y : Char) (ys : List Char), (∀ c ∈ xs, p c = true) → p y = false →
      (xs ++ y :: ys).dropWhile p = y :: ys
  | [], y, ys, _, hy => by
    have hy' : ¬ p y = true := by simp [hy]
    rw [List.nil_append, List.dropWhile_cons_of_neg hy']
  | x :: xs, y, ys, hall, hy => by
    rw [List.cons_append, List.dropWhile_cons_of_pos (hall x (by simp)),
      dropWhile_all_cons p xs y ys (fun c hc => hall c (by simp [hc])) hy]

theorem tryMatch_exact (kl : List Char) (hne : kl ≠ [])
    (hkc : ∀ c ∈ kl, isKeyChar c = true) :
    tryMatch ('\x7b' :: '\x7b' :: (kl ++ ['\x7d', '\x7d'])) =
      some (kl.asString, ('\x7b' :: '\x7b' :: (kl ++ ['\x7d', '\x7d'])).asString, []) := by
  obtain ⟨c0, kl', rfl⟩ : ∃ c0 kl', kl = c0 :: kl' := by
    cases kl with
    | nil => exact absurd rfl hne
    | cons c0 kl' => exact ⟨c0, kl', rfl⟩
  have hc0 : isKeyChar c0 = true := hkc c0 (by simp)
  have hc0s : ¬ isPySpace c0 = true := by simp [keyChar_not_space c0 hc0]
  have hsp1 : ((c0 :: kl') ++ ['\x7d', '\x7d']).takeWhile isPySpace = [] := by
    rw [List.cons_append, List.takeWhile_cons_of_neg hc0s]
  have hdr1 : ((c0 :: kl') ++ ['\x7d', '\x7d']).dropWhile isPySpace
      = (c0 :: kl') ++ ['\x7d', '\x7d'] := by
    rw [List.cons_append, List.dropWhile_cons_of_neg hc0s]
  have hkey : ((c0 :: kl') ++ ['\x7d', '\x7d']).takeWhile isKeyChar = c0 :: kl' :=
    takeWhile_all_cons isKeyChar (c0 :: kl') '\x7d' ['\x7d'] hkc (by decide)
  have hdr2 : ((c0 :: kl') ++ ['\x7d', '\x7d']).dropWhile isKeyChar = ['\x7d', '\x7d'] :=
    dropWhile_all_cons isKeyChar (c0 :: kl') '\x7d' ['\x7d'] hkc (by decide)
  simp only [tryMatch]
  rw [hsp1, hdr1, hkey, hdr2]
  rw [show List.takeWhile isPySpace ['\x7d', '\x7d'] = [] from rfl,
    show List.dropWhile isPySpace ['\x7d', '\x7d'] = ['\x7d', '\x7d'] from rfl]
  simp

theorem pySub_single (repl : String → String → Except RenderErr String) (k : String)
    (hne : k.toList ≠ []) (hkc : ∀ c ∈ k.toList, isKeyChar c = true) (s : String)
    (hrepl : repl k ("\x7b\x7b" ++ k ++ "\x7d\x7d") = .ok s) :
    pySub repl ("\x7b\x7b" ++ k ++ "\x7d\x7d") = .ok s := by
  have hdata : ("\x7b\x7b" ++ k ++ "\x7d\x7d").toList
      = '\x7b' :: '\x7b' :: (k.toList ++ ['\x7d', '\x7d']) := by
    show ("\x7b\x7b" ++ k ++ "\x7d\x7d").data = _
    rw [String.data_append, String.data_append]
    rfl
  have hstr : ('\x7b' :: '\x7b' :: (k.toList ++ ['\x7d', '\x7d'])).asString
      = "\x7b\x7b" ++ k ++ "\x7d\x7d" := by
    apply String.ext
    exact hdata.symm
  have hmk : k.toList.asString = k := rfl
  have hlen : ("\x7b\x7b" ++ k ++ "\x7d\x7d").toList.length = (k.toList.length + 3) + 1 := by
    rw [hdata]
    simp
  have htm := tryMatch_exact k.toList hne hkc
  have h0 : scanSub repl (k.toList.length + 3) [] = .ok "" := by
    cases hf : k.toList.length + 3 <;> rfl
  unfold pySub
  rw [hlen, hdata, scanSub, htm, hmk, hstr]
  simp only [hrepl, h0]
  show Except.ok (s ++ "") = Except.ok s
  rw [String.append_empty]

/-- Claim C9 counterexample: the renderer of `card-generator.py` does not
inline object values as JSON text — a resolved dict is substituted with
Python `str()` text.  Rendering the template leaf `"\x7b\x7ba\x7d\x7d"` with
`a = \x7b"x": 1\x7d` produces the Python repr `\x7b'x': 1\x7d`, which differs
from the `json.dumps` inlining `\x7b"x": 1\x7d`. -/
theorem C9_counterexample :
    renderPH false (.cons "a" (.obj (.cons "x" (.num 1) .nil)) .nil)
      (.str "\x7b\x7ba\x7d\x7d")
    = .ok (.str "\x7b\x27x\x27: 1\x7d")
    ∧ "\x7b\x27x\x27: 1\x7d" ≠ jsonDumps (.obj (.cons "x" (.num 1) .nil)) := by
  refine ⟨by decide, by decide⟩

/-- Claim C9 (amended): the two renderers type substitutions differently.
In the cropmeta variants' string-level `render_template`, a resolvable
placeholder whose value is a dict or list is inlined as `json.dumps` text and
a scalar is `str()`-ified (the rendered string is only afterwards parsed as
JSON, and may fail to parse — a fatal per-record error).  In
`card-generator.py`'s tree-level `render_placeholders`, every resolved
non-null value — objects and arrays included — is substituted as Python
`str()` text, not JSON, and the rendered result is an object whenever the
template root is an object. -/
theorem C9_placeholder_typing :
    (∀ (k : String) (vars oo : JObj),
      k.toList ≠ [] → (∀ c ∈ k.toList, isKeyChar c = true) →
      lookupDotted vars k = .obj oo →
      renderTemplateStr ("\x7b\x7b" ++ k ++ "\x7d\x7d") vars = .ok (jsonDumps (.obj oo)))
    ∧ (∀ (k : String) (vars : JObj) (xs : JList),
      k.toList ≠ [] → (∀ c ∈ k.toList, isKeyChar c = true) →
      lookupDotted vars k = .arr xs →
      renderTemplateStr ("\x7b\x7b" ++ k ++ "\x7d\x7d") vars = .ok (jsonDumps (.arr xs)))
    ∧ (∀ (k : String) (vars : JObj) (v : JVal),
      k.toList ≠ [] → (∀ c ∈ k.toList, isKeyChar c = true) →
      lookupDotted vars k = v → v ≠ .null →
      (∀ oo : JObj, v ≠ .obj oo) → (∀ xs : JList, v ≠ .arr xs) →
      renderTemplateStr ("\x7b\x7b" ++ k ++ "\x7d\x7d") vars = .ok (pyStr v))
    ∧ (∀ (k : String) (vars : JObj) (v : JVal),
      k.toList ≠ [] → (∀ c ∈ k.toList, isKeyChar c = true) →
      cgResolve vars k = some v → v ≠ .null →
      renderPH false vars (.str ("\x7b\x7b" ++ k ++ "\x7d\x7d")) = .ok (.str (pyStr v)))
    ∧ (∀ (vars kvs : JObj), ∃ p, renderPH false vars (.obj kvs) = .ok (.obj p)) := by
  refine ⟨?_, ?_, ?_, ?_, ?_⟩
  · intro k vars oo hne hkc hlook
    exact pySub_single (replCM vars) k hne hkc _ (by simp [replCM, hlook])
  · intro k vars xs hne hkc hlook
    exact pySub_single (replCM vars) k hne hkc _ (by simp [replCM, hlook])
  · intro k vars v hne hkc hlook hnull hobj harr
    have hrepl : replCM vars k ("\x7b\x7b" ++ k ++ "\x7d\x7d") = .ok (pyStr v) := by
      cases v with
      | null => exact absurd rfl hnull
      | obj oo => exact absurd rfl (hobj oo)
      | arr xs => exact absurd rfl (harr xs)
      | bool b => simp [replCM, hlook]
      | num n => simp [replCM, hlook]
      | str s => simp [replCM, hlook]
    exact pySub_single (replCM vars) k hne hkc _ hrepl
  · intro k vars v hne hkc hres hnull
    have hrepl : replCG false vars k ("\x7b\x7b" ++ k ++ "\x7d\x7d") = .ok (pyStr v) := by
      simp [replCG, hres, hnull]
    have hps := pySub_single (replCG false vars) k hne hkc _ hrepl
    simp only [renderPH]
    rw [hps]
    rfl
  · intro vars kvs
    obtain ⟨p, hp⟩ := renderPHObj_lenient_total vars kvs
    refine ⟨p, ?_⟩
    simp only [renderPH]
    rw [hp]
    rfl

/-- Claim C9 witness. -/
theorem C9_placeholder_typing_witness :
    (("a" : String).toList ≠ []
    ∧ (∀ c ∈ ("a" : String).toList, isKeyChar c = true)
    ∧ lookupDotted (.cons "a" (.obj (.cons "x" (.num 1) .nil)) .nil) "a"
      = .obj (.cons "x" (.num 1) .nil)
    ∧ lookupDotted (.cons "a" (.arr (.cons (.num 2) .nil)) .nil) "a"
      = .arr (.cons (.num 2) .nil)
    ∧ lookupDotted (.cons "a" (.num 5) .nil) "a" = .num 5
    ∧ cgResolve (.cons "a" (.num 5) .nil) "a" = some (.num 5))
    ∧ renderTemplateStr "\x7b\x7ba\x7d\x7d" (.cons "a" (.obj (.cons "x" (.num 1) .nil)) .nil)
      = .ok (jsonDumps (.obj (.cons "x" (.num 1) .nil)))
    ∧ renderTemplateStr "\x7b\x7ba\x7d\x7d" (.cons "a" (.arr (.cons (.num 2) .nil)) .nil)
      = .ok (jsonDumps (.arr (.cons (.num 2) .nil)))
    ∧ renderTemplateStr "\x7b\x7ba\x7d\x7d" (.cons "a" (.num 5) .nil) = .ok (pyStr (.num 5))
    ∧ renderPH false (.cons "a" (.num 5) .nil) (.str "\x7b\x7ba\x7d\x7d")
      = .ok (.str (pyStr (.num 5)))
    ∧ (∃ p, renderPH false .nil (.obj (.cons "t" (.str "u") .nil)) = .ok (.obj p)) :=
  ⟨⟨by decide, by decide, by decide, by decide, by decide, by decide⟩,
    C9_placeholder_typing.1 "a" (.cons "a" (.obj (.cons "x" (.num 1) .nil)) .nil)
      (.cons "x" (.num 1) .nil) (by decide) (by decide) (by decide),
    C9_placeholder_typing.2.1 "a" (.cons "a" (.arr (.cons (.num 2) .nil)) .nil)
      (.cons (.num 2) .nil) (by decide) (by decide) (by decide),
    C9_placeholder_typing.2.2.1 "a" (.cons "a" (.num 5) .nil) (.num 5)
      (by decide) (by decide) (by decide) (by decide)
      (fun _ h => JVal.noConfusion h) (fun _ h => JVal.noConfusion h),
    C9_placeholder_typing.2.2.2.1 "a" (.cons "a" (.num 5) .nil) (.num 5)
      (by decide) (by decide) (by decide) (by decide),
    C9_placeholder_typing.2.2.2.2 .nil (.cons "t" (.str "u") .nil)⟩

/- ------------------------------------------------------------------ -/
/- Claim C10: frame property of _inject_src_into_images.               -/
/- ------------------------------------------------------------------ -/

/-- Claim C10: `_inject_src_into_images` touches only the `src` field of
dict items of the top-level `images` list that already have a `src` key.
Every other top-level entry keeps its value and the key order is unchanged;
when the top-level `images` value is absent or not a list the tree is
returned untouched; an item without a `src` key, and a non-dict item, are
left unchanged, and a rewritten item changes only its `src` field.  In
contrast, the sidecar reconciler's traversal `_iter_image_dicts` finds
`images` lists at any depth: on a tree whose only `images` list sits one
level down, the injection is the identity while the traversal still yields
the image dict. -/
theorem C10_inject_src_frame (root : JObj) (uri : String) :
    (∀ k, k ≠ "images" → (injectSrcIntoImages root uri).get k = root.get k)
    ∧ (injectSrcIntoImages root uri).keys = root.keys
    ∧ (∀ xs, root.get "images" = some (.arr xs) →
      (injectSrcIntoImages root uri).get "images" = some (.arr (injectList uri xs)))
    ∧ (∀ v, root.get "images" = some v → (∀ xs : JList, v ≠ .arr xs) →
      injectSrcIntoImages root uri = root)
    ∧ (root.get "images" = none → injectSrcIntoImages root uri = root)
    ∧ (∀ kvs : JObj, (kvs.get "src").isSome = false → injectItem uri (.obj kvs) = .obj kvs)
    ∧ (∀ kvs : JObj, ∃ kvs' : JObj, injectItem uri (.obj kvs) = .obj kvs'
      ∧ ∀ k, k ≠ "src" → kvs'.get k = kvs.get k)
    ∧ (∀ v : JVal, (∀ kvs : JObj, v ≠ .obj kvs) → injectItem uri v = v)
    ∧ injectSrcIntoImages
        (.cons "card" (.obj (.cons "images"
          (.arr (.cons (.obj (.cons "src" (.str "p") .nil)) .nil)) .nil)) .nil) uri
      = .cons "card" (.obj (.cons "images"
          (.arr (.cons (.obj (.cons "src" (.str "p") .nil)) .nil)) .nil)) .nil
    ∧ imagesIn (.obj (.cons "card" (.obj (.cons "images"
          (.arr (.cons (.obj (.cons "src" (.str "p") .nil)) .nil)) .nil)) .nil))
      = [.cons "src" (.str "p") .nil] := by
  refine ⟨?_, ?_, ?_, ?_, ?_, ?_, ?_, ?_, ?_, by decide⟩
  · intro k hk
    cases hi : root.get "images" with
    | none => simp [injectSrcIntoImages, hi]
    | some v =>
      cases v with
      | arr xs =>
        simp only [injectSrcIntoImages, hi]
        exact JObj.get_set_ne root "images" _ k (Ne.symm hk)
      | null => simp [injectSrcIntoImages, hi]
      | bool b => simp [injectSrcIntoImages, hi]
      | num n => simp [injectSrcIntoImages, hi]
      | str s => simp [injectSrcIntoImages, hi]
      | obj o => simp [injectSrcIntoImages, hi]
  · cases hi : root.get "images" with
    | none => simp [injectSrcIntoImages, hi]
    | some v =>
      cases v with
      | arr xs =>
        simp only [injectSrcIntoImages, hi]
        exact JObj.keys_set_of_get root "images" _ _ hi
      | null => simp [injectSrcIntoImages, hi]
      | bool b => simp [injectSrcIntoImages, hi]
      | num n => simp [injectSrcIntoImages, hi]
      | str s => simp [injectSrcIntoImages, hi]
      | obj o => simp [injectSrcIntoImages, hi]
  · intro xs hi
    simp only [injectSrcIntoImages, hi]
    exact JObj.get_set_self root "images" _
  · intro v hi hv
    cases v with
    | arr xs => exact absurd rfl (hv xs)
    | null => simp [injectSrcIntoImages, hi]
    | bool b => simp [injectSrcIntoImages, hi]
    | num n => simp [injectSrcIntoImages, hi]
    | str s => simp [injectSrcIntoImages, hi]
    | obj o => simp [injectSrcIntoImages, hi]
  · intro hi
    simp [injectSrcIntoImages, hi]
  · intro kvs hsrc
    simp [injectItem, hsrc]
  · intro kvs
    cases hsrc : (kvs.get "src").isSome with
    | false => exact ⟨kvs, by simp [injectItem, hsrc], fun k _ => rfl⟩
    | true =>
      refine ⟨kvs.set "src" (.str uri), by simp [injectItem, hsrc], fun k hk => ?_⟩
      exact JObj.get_set_ne kvs "src" _ k (Ne.symm hk)
  · intro v hv
    cases v with
    | obj kvs => exact absurd rfl (hv kvs)
    | null => rfl
    | bool b => rfl
    | num n => rfl
    | str s => rfl
    | arr xs => rfl
  · cases hu : ("card" : String) == "images" with
    | false => simp [injectSrcIntoImages, JObj.get]
    | true => exact absurd (by decide : (("card" : String) == "images") = false) (by simp [hu])

/-- Claim C10 witness. -/
theorem C10_inject_src_frame_witness :
    (("zoom" : String) ≠ "images"
    ∧ (JObj.cons "images"
        (.arr (.cons (.obj (.cons "src" (.str "p") .nil)) .nil))
        (.cons "zoom" (.num 2) .nil)).get "images"
      = some (.arr (.cons (.obj (.cons "src" (.str "p") .nil)) .nil)))
    ∧ (injectSrcIntoImages
        (.cons "images" (.arr (.cons (.obj (.cons "src" (.str "p") .nil)) .nil))
          (.cons "zoom" (.num 2) .nil)) "u").get "zoom"
      = (JObj.cons "images" (.arr (.cons (.obj (.cons "src" (.str "p") .nil)) .nil))
          (.cons "zoom" (.num 2) .nil)).get "zoom"
    ∧ (injectSrcIntoImages
        (.cons "images" (.arr (.cons (.obj (.cons "src" (.str "p") .nil)) .nil))
          (.cons "zoom" (.num 2) .nil)) "u").get "images"
      = some (.arr (injectList "u" (.cons (.obj (.cons "src" (.str "p") .nil)) .nil))) :=
  ⟨⟨by decide, by decide⟩,
    (C10_inject_src_frame
      (.cons "images" (.arr (.cons (.obj (.cons "src" (.str "p") .nil)) .nil))
        (.cons "zoom" (.num 2) .nil)) "u").1 "zoom" (by decide),
    (C10_inject_src_frame
      (.cons "images" (.arr (.cons (.obj (.cons "src" (.str "p") .nil)) .nil))
        (.cons "zoom" (.num 2) .nil)) "u").2.2.1
      (.cons (.obj (.cons "src" (.str "p") .nil)) .nil) (by decide)⟩
